import Mathlib

/-!
Verification of the k9s-deck resource-discovery and reconciliation engine.

The definitions below are a shallow embedding of `src/main.go` (the current,
multi-target revision).  Pure Go code becomes Lean functions; the concurrent
fan-out of `fetchDataCmd` is modelled by an explicit completion order (the
order in which the per-target goroutines acquire the mutex and publish their
results), and the remote Kubernetes client is modelled by an environment
record of response functions.  Machine integers stay small here, so `Nat`
and `Int` are used directly.
-/

namespace K9sDeck

/-- A display row, from `type item struct { Type, Name, Status string }`.
`type_` is the Go field `Type` ("DEP", "POD", "HELM", "SEC", "CM", "HDR"). -/
structure Item where
  type_ : String
  name : String
  status : String
deriving DecidableEq

/-- One entry of `status.containerStatuses` of a pod, keeping the fields the
program reads (`ready`, `state.waiting.reason`) plus `state.terminated.reason`,
which is present in the API object (empty string when absent). -/
structure ContainerStatus where
  ready : Bool
  waitingReason : String
  terminatedReason : String
deriving DecidableEq

/-- The raw pod fields read by the pod loop of `fetchDataCmd`:
`metadata.name`, `status.phase`, presence of `metadata.deletionTimestamp`,
and the container statuses. -/
structure PodStatus where
  name : String
  phase : String
  deletionTimestamp : Bool
  containerStatuses : List ContainerStatus
deriving DecidableEq

/-- `readyCount` from the counting loop: containers whose `ready` is true. -/
def readyCount (p : PodStatus) : Nat :=
  (p.containerStatuses.filter (·.ready)).length

/-- `totalCount` from the counting loop: all container statuses. -/
def totalCount (p : PodStatus) : Nat :=
  p.containerStatuses.length

/-- The inner `ForEach` that stops at the first non-empty
`state.waiting.reason` (returns `""` when none is found). -/
def firstWaitingReason : List ContainerStatus → String
  | [] => ""
  | c :: cs => if c.waitingReason ≠ "" then c.waitingReason else firstWaitingReason cs

/-- The pod status reconciliation of `fetchDataCmd` (main.go:1413-1442):
deletion timestamp wins, then full readiness gives "Running", then the first
non-empty waiting reason, then the raw phase; the result is
`fmt.Sprintf("%s %d/%d", status, readyCount, totalCount)`. -/
def podStatusString (p : PodStatus) : String :=
  let ready := readyCount p
  let total := totalCount p
  let status :=
    if p.deletionTimestamp then "Terminating"
    else if 0 < total ∧ ready = total then "Running"
    else
      let w := firstWaitingReason p.containerStatuses
      if w ≠ "" then w else p.phase
  status ++ " " ++ toString ready ++ "/" ++ toString total

/-- An `envFrom` entry of a container: `secretRef.name` / `configMapRef.name`
(empty string when the reference is absent, as `gjson ... .String()` yields). -/
structure EnvFromSource where
  secretRefName : String
  configMapRefName : String
deriving DecidableEq

/-- An `env` entry of a container: `valueFrom.secretKeyRef.name` /
`valueFrom.configMapKeyRef.name` (empty string when absent). -/
structure EnvVar where
  secretKeyRefName : String
  configMapKeyRefName : String
deriving DecidableEq

/-- One entry of `spec.template.spec.containers`, with the two lists the
program scans. -/
structure ContainerSpec where
  envFrom : List EnvFromSource
  env : List EnvVar
deriving DecidableEq

/-- One entry of `spec.template.spec.volumes`: `secret.secretName` /
`configMap.name` (empty string when absent). -/
structure VolumeSpec where
  secretName : String
  configMapName : String
deriving DecidableEq

/-- The parts of a deployment descriptor that `fetchDataCmd` reads:
`metadata.annotations`, `metadata.labels`, the container specs, the volumes
and `spec.selector.matchLabels`.  The string-to-string maps are association
lists with distinct keys. -/
structure DepDoc where
  annotations : List (String × String)
  labels : List (String × String)
  containers : List ContainerSpec
  volumes : List VolumeSpec
  matchLabels : List (String × String)
deriving DecidableEq

/-- Helm release discovery as written in main.go:1336-1340: only the
`meta.helm.sh/release-name` annotation is consulted; `metadata.labels` is
never read. -/
def helmNameOf (d : DepDoc) : String :=
  (d.annotations.lookup "meta.helm.sh/release-name").getD ""

/-- Modelled from the spec: release-name discovery by fixed precedence
"annotation key A, then label key A, then label key B — first non-empty
wins" (§4.1, §9), which the repository README also documents ("detected via
meta.helm.sh/release-name annotation or label") and which the previous
revision of `fetchDataCmd` (main.go:2562-2566) implements with
label keys `meta.helm.sh/release-name` and `app.kubernetes.io/instance`. -/
def helmNameSpecModel (d : DepDoc) : String :=
  let a := (d.annotations.lookup "meta.helm.sh/release-name").getD ""
  if a ≠ "" then a
  else
    let l1 := (d.labels.lookup "meta.helm.sh/release-name").getD ""
    if l1 ≠ "" then l1
    else (d.labels.lookup "app.kubernetes.io/instance").getD ""

/-- State of the secret/configmap scan: the `seenSecrets` and
`seenConfigMaps` sets and the item list being appended to. -/
structure ScanState where
  seenSecrets : List String
  seenConfigMaps : List String
  items : List Item
deriving DecidableEq

/-- One `if name := ...; name != "" && !seenSecrets[name]` block appending a
"SEC" item. -/
def addSecretItem (st : ScanState) (name : String) : ScanState :=
  if name ≠ "" ∧ name ∉ st.seenSecrets then
    { st with
      seenSecrets := name :: st.seenSecrets
      items := st.items ++ [⟨"SEC", name, "Ref"⟩] }
  else st

/-- One `if name := ...; name != "" && !seenConfigMaps[name]` block appending
a "CM" item. -/
def addConfigMapItem (st : ScanState) (name : String) : ScanState :=
  if name ≠ "" ∧ name ∉ st.seenConfigMaps then
    { st with
      seenConfigMaps := name :: st.seenConfigMaps
      items := st.items ++ [⟨"CM", name, "Ref"⟩] }
  else st

/-- Body of the `envFrom` ForEach: secretRef first, then configMapRef. -/
def scanEnvFrom (st : ScanState) (e : EnvFromSource) : ScanState :=
  addConfigMapItem (addSecretItem st e.secretRefName) e.configMapRefName

/-- Body of the `env` ForEach: secretKeyRef first, then configMapKeyRef. -/
def scanEnvVar (st : ScanState) (v : EnvVar) : ScanState :=
  addConfigMapItem (addSecretItem st v.secretKeyRefName) v.configMapKeyRefName

/-- Per-container scan: the `envFrom` loop, then the `env` loop. -/
def scanContainer (st : ScanState) (c : ContainerSpec) : ScanState :=
  c.env.foldl scanEnvVar (c.envFrom.foldl scanEnvFrom st)

/-- Body of the volumes ForEach: `secret.secretName`, then `configMap.name`. -/
def scanVolume (st : ScanState) (v : VolumeSpec) : ScanState :=
  addConfigMapItem (addSecretItem st v.secretName) v.configMapName

/-- The de-duplicated "SEC"/"CM" items of a deployment, in encounter order
(containers first, volumes last), as main.go:1348-1391 builds them. -/
def secretConfigItems (d : DepDoc) : List Item :=
  (d.volumes.foldl scanVolume (d.containers.foldl scanContainer ⟨[], [], []⟩)).items

/-- Lexicographic comparison of character lists (Go compares strings
byte-wise; on the ASCII names involved the two orders agree). -/
def charListLe : List Char → List Char → Bool
  | [], _ => true
  | _ :: _, [] => false
  | a :: as, b :: bs => if a < b then true else if b < a then false else charListLe as bs

/-- The `<=` of Go strings, as a Boolean on the character lists. -/
def strLe (a b : String) : Bool :=
  charListLe a.data b.data

/-- `sort.Strings`: the unique sorted permutation of a list of strings. -/
def sortStrings (l : List String) : List String :=
  List.insertionSort (fun a b => strLe a b = true) l

/-- Selector construction (main.go:1394-1404): collect the matchLabels keys,
sort them, and join `key=value` pairs with commas. -/
def buildSelector (m : List (String × String)) : String :=
  let keys := sortStrings (m.map Prod.fst)
  String.intercalate "," (keys.map (fun k => k ++ "=" ++ (m.lookup k).getD ""))

/-- The remote client, as seen by one fetch cycle: `client.GetDeployment`
(`none` = error) and `client.ListPods` keyed by the selector string
(`none` = error). -/
structure FetchEnv where
  getDeployment : String → Option DepDoc
  listPods : String → Option (List PodStatus)

/-- The "POD" items appended by the pod loop. -/
def podItems (pods : List PodStatus) : List Item :=
  pods.map (fun p => ⟨"POD", p.name, podStatusString p⟩)

/-- The single error header `=== name (Err) ===` stored for a target whose
deployment fetch failed (main.go:1320). -/
def errHeaderItem (t : String) : Item :=
  ⟨"HDR", "=== " ++ t ++ " (Err) ===", ""⟩

/-- `localItems` for one successfully fetched target (main.go:1330-1447):
header, "DEP" item, optional "HELM" item, de-duplicated "SEC"/"CM" items,
then the pods of the (non-empty) selector when listing succeeds. -/
def localItems (env : FetchEnv) (tName : String) (d : DepDoc) : List Item :=
  let hdr : Item := ⟨"HDR", "=== " ++ tName ++ " ===", ""⟩
  let dep : Item := ⟨"DEP", tName, "Active"⟩
  let helmName := helmNameOf d
  let helmItems : List Item := if helmName ≠ "" then [⟨"HELM", helmName, "Release"⟩] else []
  let secCm := secretConfigItems d
  let sel := buildSelector d.matchLabels
  let pods : List Item :=
    if sel ≠ "" then
      match env.listPods sel with
      | some ps => podItems ps
      | none => []
    else []
  [hdr, dep] ++ helmItems ++ secCm ++ pods

/-- What one per-target goroutine stores into `targetItems[tName]`. -/
def taskResult (env : FetchEnv) (tName : String) : List Item :=
  match env.getDeployment tName with
  | none => [errHeaderItem tName]
  | some d => localItems env tName d

/-- The header item a target contributes (error or normal form). -/
def headerOf (env : FetchEnv) (t : String) : Item :=
  match env.getDeployment t with
  | none => errHeaderItem t
  | some _ => ⟨"HDR", "=== " ++ t ++ " ===", ""⟩

/-- The `targetItems` map after all goroutines finished, built by inserting
each task's result in completion order (later insertions shadow earlier
ones, like Go map writes). -/
def gatherResults (env : FetchEnv) (order : List String) : List (String × List Item) :=
  order.foldl (fun m t => (t, taskResult env t) :: m) []

/-- `combinedErr`: the first target, in completion order, whose deployment
fetch failed (`none` when every fetch succeeded). -/
def combinedErrTarget (env : FetchEnv) (order : List String) : Option String :=
  order.find? (fun t => (env.getDeployment t).isNone)

/-- The `updatedSelectors` entry written by one target's goroutine. -/
def taskSelectorDelta (env : FetchEnv) (t : String) : List (String × String) :=
  match env.getDeployment t with
  | none => []
  | some d =>
    let sel := buildSelector d.matchLabels
    if sel ≠ "" then [(t, sel)] else []

/-- The `updatedHelm` entry written by one target's goroutine. -/
def taskHelmDelta (env : FetchEnv) (t : String) : List (String × String) :=
  match env.getDeployment t with
  | none => []
  | some d =>
    let h := helmNameOf d
    if h ≠ "" then [(t, h)] else []

/-- The `dataMsg` produced by a fetch cycle, plus `targetsAfter`: the
contents of the caller's `targets` slice after the cycle ran
`sort.Strings(targets)` on it in place (main.go:1459). -/
structure DataMsg where
  items : List Item
  selectors : List (String × String)
  helmReleases : List (String × String)
  errTarget : Option String
  targetsAfter : List String
deriving DecidableEq

/-- `fetchDataCmd` (main.go:1297-1468) for a given completion order of the
per-target goroutines: gather every task's result, then assemble the global
list by iterating the sorted targets and concatenating each target's stored
sub-list. -/
def fetchDataCmd (env : FetchEnv) (targets : List String) (order : List String) : DataMsg :=
  let m := gatherResults env order
  let sorted := sortStrings targets
  let globalItems := sorted.flatMap (fun t => ((m.lookup t).getD []))
  { items := globalItems
    selectors := order.flatMap (taskSelectorDelta env)
    helmReleases := order.flatMap (taskHelmDelta env)
    errTarget := combinedErrTarget env order
    targetsAfter := sorted }

/-- Whether an item is a "HDR" row. -/
def isHdr (i : Item) : Bool :=
  i.type_ = "HDR"

/-- `strings.TrimSpace`. -/
def trimStr (s : String) : String :=
  (((s.data.dropWhile Char.isWhitespace).reverse.dropWhile Char.isWhitespace).reverse).asString

/-- `isPositiveInteger` (main.go:1611-1622): trim, reject "" and "0", accept
only decimal digits. -/
def isPositiveInteger (s : String) : Bool :=
  let t := trimStr s
  if t = "" ∨ t = "0" then false
  else t.data.all (fun r => decide ('0' ≤ r) && decide (r ≤ '9'))

/-- `isValidK8sName` (main.go:1624-1639). `MaxK8sNameLength` is 253. -/
def isValidK8sName (name : String) : Bool :=
  if name = "" ∨ 253 < name.length then false
  else if name.data.head? = some '-' ∨ name.data.getLast? = some '-' then false
  else name.data.all (fun r =>
    (decide ('a' ≤ r) && decide (r ≤ 'z')) ||
    (decide ('0' ≤ r) && decide (r ≤ '9')) ||
    decide (r = '-'))

/-- Worker for `fields`: split a character list into maximal whitespace-free
words (`strings.Fields`). -/
def fieldsGo : List Char → List Char → List String
  | acc, [] => if acc = [] then [] else [acc.reverse.asString]
  | acc, c :: cs =>
    if c.isWhitespace then
      if acc = [] then fieldsGo [] cs else acc.reverse.asString :: fieldsGo [] cs
    else fieldsGo (c :: acc) cs

/-- `strings.Fields`. -/
def fields (s : String) : List String :=
  fieldsGo [] s.data

/-- Digit scanning of `fmt.Sscanf` with `%d`: at least one leading decimal
digit, value of the maximal digit run; anything after it is left unread. -/
def takeDigitsVal : List Char → Nat → Bool → Option Nat
  | [], acc, seen => if seen then some acc else none
  | c :: rest, acc, seen =>
    if c.isDigit then takeDigitsVal rest (acc * 10 + (c.toNat - '0'.toNat)) true
    else if seen then some acc else none

/-- `fmt.Sscanf(s, "%d", &n)`: an optional sign followed by at least one
digit succeeds (trailing junk ignored, as Sscanf leaves it unread);
anything else is a scan error. -/
def parseGoInt (s : String) : Option Int :=
  match s.data with
  | '-' :: rest => (takeDigitsVal rest 0 false).map (fun n => -(n : Int))
  | '+' :: rest => (takeDigitsVal rest 0 false).map (fun n => (n : Int))
  | cs => (takeDigitsVal cs 0 false).map (fun n => (n : Int))

/-- A remote control-plane call issued by `executeCommand`. -/
inductive RemoteCall where
  | scaleDeployment (name : String) (replicas : Int)
  | restartDeployment (name : String)
  | rollbackHelm (release : String) (revision : Int)
deriving DecidableEq

/-- The message `executeCommand` returns: a `detailsMsg{err: ...}`, a
`commandFinishedMsg` (which the update loop answers with a fresh fetch), the
batch of the `fetch` verb, or `nil`. -/
inductive ExecMsg where
  | detailsErr (msg : String)
  | commandFinished
  | fetchBatch
  | nothing
deriving DecidableEq

/-- Success/failure of the remote client calls, per target and argument. -/
structure ExecEnv where
  scaleOk : String → Int → Bool
  restartOk : String → Bool
  rollbackOk : String → Int → Bool

/-- `executeCommand` (main.go:1230-1294), returning the resulting message
together with the list of remote control-plane calls it performed. -/
def executeCommand (env : ExecEnv) (input helmRelease deploymentName : String) :
    ExecMsg × List RemoteCall :=
  match fields input with
  | [] => (.nothing, [])
  | verb :: args =>
    if verb = "scale" then
      match args with
      | [] => (.detailsErr "Usage: scale <replicas>", [])
      | arg :: _ =>
        if deploymentName = "" then (.detailsErr "No deployment selected", [])
        else
          match parseGoInt arg with
          | none => (.detailsErr ("Invalid replica count: " ++ arg), [])
          | some replicas =>
            if env.scaleOk deploymentName replicas then
              (.commandFinished, [.scaleDeployment deploymentName replicas])
            else (.detailsErr "Scale failed", [.scaleDeployment deploymentName replicas])
    else if verb = "restart" then
      if deploymentName = "" then (.detailsErr "No deployment selected", [])
      else if env.restartOk deploymentName then
        (.commandFinished, [.restartDeployment deploymentName])
      else (.detailsErr "Restart failed", [.restartDeployment deploymentName])
    else if verb = "rollback" then
      if helmRelease = "" then (.detailsErr "No Helm release associated.", [])
      else
        match args with
        | [] => (.detailsErr "Usage: rollback <revision>", [])
        | arg :: _ =>
          match parseGoInt arg with
          | none => (.detailsErr ("Invalid revision: " ++ arg), [])
          | some revision =>
            if env.rollbackOk helmRelease revision then
              (.commandFinished, [.rollbackHelm helmRelease revision])
            else (.detailsErr "Rollback failed", [.rollbackHelm helmRelease revision])
    else if verb = "fetch" then (.fetchBatch, [])
    else (.detailsErr ("Unknown command: " ++ verb), [])

/-- Whether a result message makes the update loop run a fresh fetch cycle
(`commandFinishedMsg` does, and the `fetch` batch contains one). -/
def triggersRefresh : ExecMsg → Bool
  | .commandFinished => true
  | .fetchBatch => true
  | _ => false

/-- Result of the scale shortcut input path: rejected before
`executeCommand` runs, or executed with its result. -/
inductive ShortcutScaleResult where
  | rejected (msg : String)
  | executed (r : ExecMsg × List RemoteCall)
deriving DecidableEq

/-- The "scale" shortcut handler (main.go:560-573): reject empty or
non-positive-integer input before any call, otherwise run
`executeCommand("scale "+val, "", deploymentName)`. -/
def shortcutScale (env : ExecEnv) (val deploymentName : String) : ShortcutScaleResult :=
  if val = "" then .rejected "Scale value cannot be empty"
  else if trimStr val = "" ∨ ¬ isPositiveInteger val then
    .rejected "Scale value must be a positive integer"
  else .executed (executeCommand env ("scale " ++ val) "" deploymentName)

/-- The downward scan of `getCurrentDeploymentName`: first "DEP" item at an
index `≤ i`. -/
def findDepAt (items : List Item) : Nat → String
  | 0 =>
    match items[0]? with
    | some it => if it.type_ = "DEP" then it.name else ""
    | none => ""
  | i + 1 =>
    match items[i + 1]? with
    | some it => if it.type_ = "DEP" then it.name else findDepAt items i
    | none => findDepAt items i

/-- `getCurrentDeploymentName` (main.go:1584-1599). -/
def getCurrentDeploymentName (items : List Item) (cursor : Nat) : String :=
  if items.length = 0 ∨ items.length ≤ cursor then ""
  else findDepAt items cursor

/-- The `removeTargetMsg` handler's list update (main.go:350-356): keep
every target different from `name`. -/
def removeTargetUpdate (targets : List String) (name : String) : List String :=
  targets.filter (fun t => t ≠ name)

/-- The `addTargetMsg` handler (main.go:334-346): append unless already
present. -/
def addTargetUpdate (targets : List String) (name : String) : List String :=
  if targets.contains name then targets else targets ++ [name]

/-- The "remove" shortcut input path (main.go:606-618) composed with the
`removeTargetMsg` handler it may emit: reject when only one target remains,
resolve an empty input to the current deployment, and otherwise remove. -/
def removeShortcutPath (targets : List String) (items : List Item) (cursor : Nat)
    (val : String) : List String :=
  if targets.length ≤ 1 then targets
  else
    let v := if val = "" then getCurrentDeploymentName items cursor else val
    if v ≠ "" then removeTargetUpdate targets v else targets

/-- The ":remove" command path (main.go:628-659) composed with the
`removeTargetMsg` handler: resolve the argument (or the current deployment),
reject unknown targets, reject when only one target remains, otherwise
remove.  `arg` is `parts[1]` when the command had an argument. -/
def removeCommandPath (targets : List String) (items : List Item) (cursor : Nat)
    (arg : Option String) : List String :=
  let targetToRemove :=
    match arg with
    | some a => a
    | none => getCurrentDeploymentName items cursor
  if targetToRemove = "" then targets
  else if ¬ targets.contains targetToRemove then targets
  else if targets.length ≤ 1 then targets
  else removeTargetUpdate targets targetToRemove

/-- ASCII word character, as in the RE2 word boundary `\b`. -/
def isWordChar (c : Char) : Bool :=
  c.isAlphanum || c = '_'

/-- The anchored source pattern `^\[([^/]+)/([^/]+)/([^\]]+)\]\s*(.*)$` of
`podPrefixRegex`, returning the four capture groups. -/
def matchPodSource (line : String) : Option (String × String × String × String) :=
  match line.data with
  | '[' :: rest =>
    let g1 := rest.takeWhile (fun c => c ≠ '/')
    match rest.dropWhile (fun c => c ≠ '/') with
    | '/' :: r2 =>
      if g1 = [] then none
      else
        let g2 := r2.takeWhile (fun c => c ≠ '/')
        match r2.dropWhile (fun c => c ≠ '/') with
        | '/' :: r4 =>
          if g2 = [] then none
          else
            let g3 := r4.takeWhile (fun c => c ≠ ']')
            match r4.dropWhile (fun c => c ≠ ']') with
            | ']' :: r6 =>
              if g3 = [] then none
              else some (g1.asString, g2.asString, g3.asString,
                (r6.dropWhile Char.isWhitespace).asString)
            | _ => none
        | _ => none
    | _ => none
  | _ => none

/-- The alternation of `logLevelRegex`, in source order. -/
def logLevelVocab : List String :=
  ["FATAL", "ERROR", "ERR", "WARN", "WARNING", "INFO", "DEBUG", "TRACE"]

/-- Case-insensitive match of an upper-case keyword against the input head;
returns the remaining input on success. -/
def ciMatchRest : List Char → List Char → Option (List Char)
  | [], cs => some cs
  | _ :: _, [] => none
  | w :: ws, c :: cs => if c.toUpper = w then ciMatchRest ws cs else none

/-- The trailing word boundary `\b`: end of input or a non-word character. -/
def boundaryOkAfter : List Char → Bool
  | [] => true
  | c :: _ => ¬ isWordChar c

/-- Try each vocabulary keyword at the current position (leftmost-first
alternation of the regex engine). -/
def tryVocabAt (cs : List Char) : Option String :=
  logLevelVocab.findSome? (fun w =>
    match ciMatchRest w.data cs with
    | some rest => if boundaryOkAfter rest then some w else none
    | none => none)

/-- Scan the input left to right; a keyword may start only at a position
whose preceding character is not a word character (the leading `\b`). -/
def findLevelAux : Bool → List Char → Option String
  | _, [] => none
  | prevIsWord, c :: cs =>
    match (if prevIsWord then none else tryVocabAt (c :: cs)) with
    | some w => some w
    | none => findLevelAux (isWordChar c) cs

/-- `logLevelRegex.FindStringSubmatch` followed by `strings.ToUpper`: the
first whole-word severity keyword, upper-cased (the vocabulary is already
upper-case). -/
def detectLogLevel (s : String) : Option String :=
  findLevelAux false s.data

/-- The parsed per-line record `logLineInfo` (main.go:131-139).  The Go
field `PodPrefix` is `podSource` here. -/
structure LogLineInfo where
  originalLine : String
  podSource : String
  podName : String
  containerName : String
  logContent : String
  logLevel : String
  isJSON : Bool
deriving DecidableEq

/-- `parseLogLine` (main.go:1698-1724): source extraction, severity
detection on the content, JSON detection by trimmed bracket matching. -/
def parseLogLine (line : String) : LogLineInfo :=
  let base : LogLineInfo :=
    { originalLine := line, podSource := "", podName := "", containerName := ""
      logContent := line, logLevel := "", isJSON := false }
  let info :=
    match matchPodSource line with
    | some (_, pod, container, rest) =>
      { base with
        podSource := pod ++ "/" ++ container
        podName := pod
        containerName := container
        logContent := rest }
    | none => base
  let info :=
    match detectLogLevel info.logContent with
    | some w => { info with logLevel := w }
    | none => info
  let t := (trimStr info.logContent).data
  let isJson :=
    (t.head? = some '\x7b' ∧ t.getLast? = some '\x7d') ∨
    (t.head? = some '[' ∧ t.getLast? = some ']')
  { info with isJSON := isJson }

/-- `podColorPalette` (main.go:85-96), by terminal color code. -/
def podColorPalette : List String :=
  ["39", "42", "220", "201", "141", "208", "51", "82", "213", "228"]

/-- `getPodColor` (main.go:1727-1736): fold the rune values through
`hash = (hash*31 + int(c)) % len(palette)` and index the palette (the value
stays in range, so the negative-hash guard of the source never fires). -/
def getPodColor (podName : String) : String :=
  let hash := podName.data.foldl
    (fun h c => (h * 31 + c.toNat) % podColorPalette.length) 0
  (podColorPalette[hash % podColorPalette.length]?).getD ""

/-! Concrete inputs used by witnesses and counterexamples. -/

/-- A fully ready two-container pod still carrying a stale waiting reason. -/
def c3pod : PodStatus :=
  { name := "web-1", phase := "Pending", deletionTimestamp := false
    containerStatuses :=
      [{ ready := true, waitingReason := "CrashLoopBackOff", terminatedReason := "" },
       { ready := true, waitingReason := "", terminatedReason := "" }] }

/-- A non-ready pod with no waiting reason but a terminated reason "Error". -/
def c4pod : PodStatus :=
  { name := "job-1", phase := "Failed", deletionTimestamp := false
    containerStatuses :=
      [{ ready := false, waitingReason := "", terminatedReason := "Error" }] }

/-- A descriptor with no release annotation whose labels carry the release
name. -/
def c5doc : DepDoc :=
  { annotations := []
    labels := [("meta.helm.sh/release-name", "myrel")]
    containers := [], volumes := [], matchLabels := [] }

/-- A deployment document for the fetch-cycle witnesses. -/
def wDoc : DepDoc :=
  { annotations := [("meta.helm.sh/release-name", "rel1")]
    labels := []
    containers := [{ envFrom := [{ secretRefName := "s1", configMapRefName := "" }], env := [] }]
    volumes := [{ secretName := "s1", configMapName := "cm1" }]
    matchLabels := [("app", "good")] }

/-- A fetch environment where target "good" succeeds and every other
deployment fetch fails. -/
def wEnv : FetchEnv :=
  { getDeployment := fun t => if t = "good" then some wDoc else none
    listPods := fun sel =>
      if sel = "app=good" then
        some [{ name := "good-1", phase := "Running", deletionTimestamp := false
                containerStatuses := [{ ready := true, waitingReason := "", terminatedReason := "" }] }]
      else none }

/-- A fetch environment whose calls all fail. -/
def emptyEnv : FetchEnv :=
  { getDeployment := fun _ => none, listPods := fun _ => none }

/-- A command environment whose remote calls all succeed. -/
def c7env : ExecEnv :=
  { scaleOk := fun _ _ => true, restartOk := fun _ => true, rollbackOk := fun _ _ => true }

/-- The log line of the classification test. -/
def c9line : String :=
  "[pod/app-abc123/app] ERROR: boom"

/-! ## Order infrastructure for `sortStrings` -/

theorem charListLe_total : ∀ as bs, charListLe as bs = true ∨ charListLe bs as = true
  | [], _ => Or.inl rfl
  | _ :: _, [] => Or.inr rfl
  | a :: as, b :: bs => by
    rcases lt_trichotomy a b with h | h | h
    · left; simp [charListLe, h]
    · subst h
      rcases charListLe_total as bs with ih | ih
      · left; simp [charListLe, ih]
      · right; simp [charListLe, ih]
    · right; simp [charListLe, h]

theorem charListLe_trans :
    ∀ as bs cs, charListLe as bs = true → charListLe bs cs = true → charListLe as cs = true
  | [], _, _ => fun _ _ => rfl
  | _ :: _, [], _ => fun h _ => by simp [charListLe] at h
  | _ :: _, _ :: _, [] => fun _ h => by simp [charListLe] at h
  | a :: as, b :: bs, c :: cs => by
    intro h1 h2
    rcases lt_trichotomy a b with hab | hab | hab
    · rcases lt_trichotomy b c with hbc | hbc | hbc
      · simp [charListLe, lt_trans hab hbc]
      · subst hbc; simp [charListLe, hab]
      · simp [charListLe, hbc, lt_asymm hbc] at h2
    · subst hab
      rcases lt_trichotomy a c with hac | hac | hac
      · simp [charListLe, hac]
      · subst hac
        simp only [charListLe, lt_irrefl, if_false] at h1 h2 ⊢
        exact charListLe_trans as bs cs h1 h2
      · simp [charListLe, hac, lt_asymm hac] at h2
    · simp [charListLe, hab, lt_asymm hab] at h1

theorem charListLe_antisymm :
    ∀ as bs, charListLe as bs = true → charListLe bs as = true → as = bs
  | [], [] => fun _ _ => rfl
  | [], _ :: _ => fun _ h => by simp [charListLe] at h
  | _ :: _, [] => fun h _ => by simp [charListLe] at h
  | a :: as, b :: bs => by
    intro h1 h2
    rcases lt_trichotomy a b with hab | hab | hab
    · simp [charListLe, hab, lt_asymm hab] at h2
    · subst hab
      simp only [charListLe, lt_irrefl, if_false] at h1 h2
      exact congrArg (a :: ·) (charListLe_antisymm as bs h1 h2)
    · simp [charListLe, hab, lt_asymm hab] at h1

instance : IsTotal String (fun a b => strLe a b = true) :=
  ⟨fun a b => charListLe_total a.data b.data⟩

instance : IsTrans String (fun a b => strLe a b = true) :=
  ⟨fun a b c => charListLe_trans a.data b.data c.data⟩

instance : IsAntisymm String (fun a b => strLe a b = true) :=
  ⟨fun a b h1 h2 => by
    cases a; cases b
    exact congrArg String.mk (charListLe_antisymm _ _ h1 h2)⟩

theorem sortStrings_perm (l : List String) : (sortStrings l).Perm l :=
  List.perm_insertionSort _ l

theorem sortStrings_sorted (l : List String) :
    (sortStrings l).Sorted (fun a b => strLe a b = true) :=
  List.sorted_insertionSort _ l

theorem sortStrings_eq_of_perm {l₁ l₂ : List String} (h : l₁.Perm l₂) :
    sortStrings l₁ = sortStrings l₂ :=
  List.eq_of_perm_of_sorted
    (((sortStrings_perm l₁).trans h).trans (sortStrings_perm l₂).symm)
    (sortStrings_sorted l₁) (sortStrings_sorted l₂)

/-! ## Claims about the instance status reconciler -/

/-- C3: an instance with no deletion timestamp, at least one container and
every container ready is reported as "Running ready/total", whatever
waiting or terminated reasons the input still carries. -/
theorem reconcile_running_authoritative (p : PodStatus)
    (hdel : p.deletionTimestamp = false)
    (htot : 0 < totalCount p)
    (hready : readyCount p = totalCount p) :
    podStatusString p =
      "Running" ++ " " ++ toString (readyCount p) ++ "/" ++ toString (totalCount p) := by
  simp only [podStatusString, hdel, Bool.false_eq_true, if_false]
  rw [if_pos ⟨htot, hready⟩]

theorem reconcile_running_authoritative_witness :
    (c3pod.deletionTimestamp = false
      ∧ 0 < totalCount c3pod
      ∧ readyCount c3pod = totalCount c3pod
      ∧ firstWaitingReason c3pod.containerStatuses = "CrashLoopBackOff")
    ∧ podStatusString c3pod = "Running 2/2" :=
  ⟨⟨rfl, by decide, by decide, by decide⟩,
    (reconcile_running_authoritative c3pod rfl (by decide) (by decide)).trans (by decide)⟩

/-- C4 (amended): when an instance is not terminating and not fully ready,
the label is the first non-empty waiting reason, or the raw phase when no
container reports a waiting reason; terminated reasons are never consulted. -/
theorem reconcile_waiting_then_phase (p : PodStatus)
    (hdel : p.deletionTimestamp = false)
    (hnotready : ¬(0 < totalCount p ∧ readyCount p = totalCount p)) :
    podStatusString p =
      (if firstWaitingReason p.containerStatuses ≠ "" then firstWaitingReason p.containerStatuses
        else p.phase)
        ++ " " ++ toString (readyCount p) ++ "/" ++ toString (totalCount p) := by
  simp only [podStatusString, hdel, Bool.false_eq_true, if_false]
  rw [if_neg hnotready]

theorem reconcile_waiting_then_phase_witness :
    (c4pod.deletionTimestamp = false
      ∧ ¬(0 < totalCount c4pod ∧ readyCount c4pod = totalCount c4pod))
    ∧ podStatusString c4pod = "Failed 0/1" :=
  ⟨⟨rfl, by decide⟩,
    (reconcile_waiting_then_phase c4pod rfl (by decide)).trans (by decide)⟩

/-- C4 (counterexample): a non-ready instance with no waiting reason and a
terminated reason "Error" is labelled with the raw phase "Failed", not with
the terminated reason as the claim requires. -/
theorem reconcile_terminated_reason_ignored_cex :
    c4pod.deletionTimestamp = false
    ∧ ¬(0 < totalCount c4pod ∧ readyCount c4pod = totalCount c4pod)
    ∧ firstWaitingReason c4pod.containerStatuses = ""
    ∧ c4pod.containerStatuses.map (fun c => c.terminatedReason) = ["Error"]
    ∧ "Error" ≠ "Completed"
    ∧ podStatusString c4pod ≠ "Error 0/1"
    ∧ podStatusString c4pod = "Failed 0/1" := by
  decide

/-- C5: `fetchDataCmd` reads the release name only from the
`meta.helm.sh/release-name` annotation; a descriptor whose labels carry the
release name yields no release, although the spec's precedence (and the
repository README, and the previous revision of the function) requires the
label fallback. -/
theorem helm_label_release_ignored_eval :
    c5doc.annotations.lookup "meta.helm.sh/release-name" = none
    ∧ c5doc.labels.lookup "meta.helm.sh/release-name" = some "myrel"
    ∧ helmNameOf c5doc = ""
    ∧ helmNameSpecModel c5doc = "myrel" := by
  decide

/-- C9: the line `[pod/app-abc123/app] ERROR: boom` classifies to source
`app-abc123/app` (pod `app-abc123`, container `app`), level `ERROR`,
content `ERROR: boom`, not JSON; and the prefix color is the palette entry
selected by hashing the pod name, so equal sources get equal colors. -/
theorem log_classification_concrete :
    (parseLogLine c9line).podSource = "app-abc123/app"
    ∧ (parseLogLine c9line).podName = "app-abc123"
    ∧ (parseLogLine c9line).containerName = "app"
    ∧ (parseLogLine c9line).logLevel = "ERROR"
    ∧ (parseLogLine c9line).logContent = "ERROR: boom"
    ∧ (parseLogLine c9line).isJSON = false
    ∧ getPodColor (parseLogLine c9line).podName = getPodColor "app-abc123"
    ∧ podColorPalette.contains (getPodColor "app-abc123") = true := by
  decide

/-- C10 (amended): a fetch cycle leaves the caller's target list a sorted
permutation of its previous value: `sort.Strings` runs on the caller's
slice in place, so the elements are preserved but the order becomes the
lexicographic one, not the caller's previous order. -/
theorem fetch_caller_targets_sorted_perm (env : FetchEnv) (targets order : List String) :
    (fetchDataCmd env targets order).targetsAfter = sortStrings targets
    ∧ (fetchDataCmd env targets order).targetsAfter.Perm targets :=
  ⟨rfl, sortStrings_perm targets⟩

/-- C10 (counterexample): invoking a fetch cycle with caller list
`["b", "a"]` leaves the caller's list reordered to `["a", "b"]`, so the
cycle does not leave the caller's list in the same order. -/
theorem fetch_mutates_caller_targets_cex :
    (fetchDataCmd emptyEnv ["b", "a"] ["b", "a"]).targetsAfter ≠ ["b", "a"]
    ∧ (fetchDataCmd emptyEnv ["b", "a"] ["b", "a"]).targetsAfter = ["a", "b"] := by
  decide

/-! ## The merged item list of a fetch cycle -/

theorem lookup_gatherResults_aux (env : FetchEnv) :
    ∀ (order : List String) (init : List (String × List Item)) (t : String),
      (order.foldl (fun m t' => (t', taskResult env t') :: m) init).lookup t
        = if t ∈ order then some (taskResult env t) else init.lookup t := by
  intro order
  induction order with
  | nil => intro init t; simp
  | cons a rest ih =>
    intro init t
    rw [List.foldl_cons, ih]
    by_cases hmem : t ∈ rest
    · simp [hmem]
    · by_cases hta : t = a
      · subst hta
        simp [hmem, List.lookup_cons]
      · simp [hmem, hta, List.lookup_cons, List.mem_cons, Ne.symm hta]
        cases hbeq : (t == a) with
        | true => exact absurd (by simpa using hbeq) hta
        | false => rfl

theorem lookup_gatherResults (env : FetchEnv) (order : List String) (t : String)
    (ht : t ∈ order) :
    (gatherResults env order).lookup t = some (taskResult env t) := by
  unfold gatherResults
  rw [lookup_gatherResults_aux env order [] t, if_pos ht]

theorem flatMap_congr_mem {α β : Type} {l : List α} {f g : α → List β}
    (h : ∀ a ∈ l, f a = g a) : l.flatMap f = l.flatMap g := by
  induction l with
  | nil => rfl
  | cons a as ih =>
    rw [List.flatMap_cons, List.flatMap_cons, h a (by simp),
      ih (fun b hb => h b (by simp [hb]))]

theorem fetch_items_eq (env : FetchEnv) (targets order : List String)
    (hperm : order.Perm targets) :
    (fetchDataCmd env targets order).items = (sortStrings targets).flatMap (taskResult env) := by
  show (sortStrings targets).flatMap (fun t => ((gatherResults env order).lookup t).getD [])
      = (sortStrings targets).flatMap (taskResult env)
  apply flatMap_congr_mem
  intro t htmem
  have ht : t ∈ order := hperm.mem_iff.mpr ((sortStrings_perm targets).mem_iff.mp htmem)
  rw [lookup_gatherResults env order t ht]
  rfl

/-! ## No header item beyond the per-target header -/

theorem filter_isHdr_addSecretItem (st : ScanState) (n : String) :
    (addSecretItem st n).items.filter isHdr = st.items.filter isHdr := by
  unfold addSecretItem
  split
  · simp [List.filter_append, isHdr]
  · rfl

theorem filter_isHdr_addConfigMapItem (st : ScanState) (n : String) :
    (addConfigMapItem st n).items.filter isHdr = st.items.filter isHdr := by
  unfold addConfigMapItem
  split
  · simp [List.filter_append, isHdr]
  · rfl

theorem filter_isHdr_foldl {α : Type} (f : ScanState → α → ScanState)
    (hf : ∀ st a, (f st a).items.filter isHdr = st.items.filter isHdr) :
    ∀ (l : List α) (st : ScanState),
      (l.foldl f st).items.filter isHdr = st.items.filter isHdr := by
  intro l
  induction l with
  | nil => intro st; rfl
  | cons a as ih => intro st; rw [List.foldl_cons, ih, hf]

theorem filter_isHdr_scanEnvFrom (st : ScanState) (e : EnvFromSource) :
    (scanEnvFrom st e).items.filter isHdr = st.items.filter isHdr := by
  unfold scanEnvFrom
  rw [filter_isHdr_addConfigMapItem, filter_isHdr_addSecretItem]

theorem filter_isHdr_scanEnvVar (st : ScanState) (v : EnvVar) :
    (scanEnvVar st v).items.filter isHdr = st.items.filter isHdr := by
  unfold scanEnvVar
  rw [filter_isHdr_addConfigMapItem, filter_isHdr_addSecretItem]

theorem filter_isHdr_scanContainer (st : ScanState) (c : ContainerSpec) :
    (scanContainer st c).items.filter isHdr = st.items.filter isHdr := by
  unfold scanContainer
  rw [filter_isHdr_foldl scanEnvVar filter_isHdr_scanEnvVar,
    filter_isHdr_foldl scanEnvFrom filter_isHdr_scanEnvFrom]

theorem filter_isHdr_scanVolume (st : ScanState) (v : VolumeSpec) :
    (scanVolume st v).items.filter isHdr = st.items.filter isHdr := by
  unfold scanVolume
  rw [filter_isHdr_addConfigMapItem, filter_isHdr_addSecretItem]

theorem filter_isHdr_secretConfigItems (d : DepDoc) :
    (secretConfigItems d).filter isHdr = [] := by
  unfold secretConfigItems
  rw [filter_isHdr_foldl scanVolume filter_isHdr_scanVolume,
    filter_isHdr_foldl scanContainer filter_isHdr_scanContainer]
  rfl

theorem filter_isHdr_podItems (ps : List PodStatus) :
    (podItems ps).filter isHdr = [] := by
  induction ps with
  | nil => rfl
  | cons p ps ih =>
    simp only [podItems, List.map_cons, List.filter_cons] at ih ⊢
    simp only [isHdr] at ih ⊢
    simp only [show (decide (("POD" : String) = "HDR")) = false from by decide,
      Bool.false_eq_true, if_false]
    exact ih

theorem filter_isHdr_taskResult (env : FetchEnv) (t : String) :
    (taskResult env t).filter isHdr = [headerOf env t] := by
  unfold taskResult headerOf
  cases hdep : env.getDeployment t with
  | none => simp [errHeaderItem, isHdr]
  | some d =>
    show (localItems env t d).filter isHdr = [⟨"HDR", "=== " ++ t ++ " ===", ""⟩]
    unfold localItems
    simp only [List.append_assoc, List.filter_append, filter_isHdr_secretConfigItems]
    rw [show ([⟨"HDR", "=== " ++ t ++ " ===", ""⟩, ⟨"DEP", t, "Active"⟩] :
        List Item).filter isHdr = [⟨"HDR", "=== " ++ t ++ " ===", ""⟩] from by simp [isHdr]]
    have hhelm : (if helmNameOf d ≠ "" then [(⟨"HELM", helmNameOf d, "Release"⟩ : Item)]
        else []).filter isHdr = [] := by
      split <;> simp [isHdr]
    have hpods : (if buildSelector d.matchLabels ≠ "" then
        match env.listPods (buildSelector d.matchLabels) with
        | some ps => podItems ps
        | none => [] else []).filter isHdr = [] := by
      split
      · cases env.listPods (buildSelector d.matchLabels) with
        | none => rfl
        | some ps => exact filter_isHdr_podItems ps
      · rfl
    rw [hhelm, hpods]
    simp

theorem filter_isHdr_flatMap (env : FetchEnv) (l : List String) :
    ((l.flatMap (taskResult env)).filter isHdr) = l.map (headerOf env) := by
  induction l with
  | nil => rfl
  | cons a as ih =>
    rw [List.flatMap_cons, List.filter_append, ih, filter_isHdr_taskResult, List.map_cons]
    rfl

/-- C1: with at least one monitored target, a fetch cycle merges the
per-target sub-lists in sorted order of the target names, whatever the
completion order of the concurrent tasks was, and the header rows of the
merged list are exactly one header per target, in that same lexicographic
order. -/
theorem fetch_cycle_headers_sorted (env : FetchEnv) (targets order : List String)
    (hperm : order.Perm targets) (_hne : targets ≠ []) (hnd : targets.Nodup) :
    (fetchDataCmd env targets order).items = (sortStrings targets).flatMap (taskResult env)
    ∧ (fetchDataCmd env targets order).items.filter isHdr
        = (sortStrings targets).map (headerOf env)
    ∧ (sortStrings targets).Perm targets
    ∧ (sortStrings targets).Nodup
    ∧ (sortStrings targets).Sorted (fun a b => strLe a b = true) := by
  have hitems := fetch_items_eq env targets order hperm
  refine ⟨hitems, ?_, sortStrings_perm targets,
    (sortStrings_perm targets).nodup_iff.mpr hnd, sortStrings_sorted targets⟩
  rw [hitems, filter_isHdr_flatMap]

theorem fetch_cycle_headers_sorted_witness :
    ((["good", "b"] : List String).Perm ["b", "good"]
      ∧ (["b", "good"] : List String) ≠ [] ∧ (["b", "good"] : List String).Nodup)
    ∧ ((fetchDataCmd wEnv ["b", "good"] ["good", "b"]).items
          = (sortStrings ["b", "good"]).flatMap (taskResult wEnv)
      ∧ (fetchDataCmd wEnv ["b", "good"] ["good", "b"]).items.filter isHdr
          = (sortStrings ["b", "good"]).map (headerOf wEnv)
      ∧ (sortStrings ["b", "good"]).Perm ["b", "good"]
      ∧ (sortStrings ["b", "good"]).Nodup
      ∧ (sortStrings ["b", "good"]).Sorted (fun a b => strLe a b = true)) :=
  ⟨⟨by decide, by decide, by decide⟩,
    fetch_cycle_headers_sorted wEnv ["b", "good"] ["good", "b"]
      (by decide) (by decide) (by decide)⟩

/-- C2: when the descriptor fetch of one target fails, the merged list is
the sorted concatenation in which the failing target contributes exactly the
single error header and every other target contributes its usual sub-list;
a successfully fetched target always contributes its full local items, and
the cycle records the error. -/
theorem fetch_partial_failure_isolation (env : FetchEnv) (targets order : List String)
    (t0 : String) (hperm : order.Perm targets) (ht0 : t0 ∈ targets)
    (hfail : env.getDeployment t0 = none) :
    (fetchDataCmd env targets order).items
      = (sortStrings targets).flatMap
          (fun t => if t = t0 then [errHeaderItem t0] else taskResult env t)
    ∧ (∀ t d, env.getDeployment t = some d → taskResult env t = localItems env t d)
    ∧ (fetchDataCmd env targets order).errTarget.isSome = true := by
  refine ⟨?_, ?_, ?_⟩
  · rw [fetch_items_eq env targets order hperm]
    apply flatMap_congr_mem
    intro t _
    by_cases ht : t = t0
    · subst ht
      rw [if_pos rfl]
      unfold taskResult
      rw [hfail]
    · rw [if_neg ht]
  · intro t d h
    unfold taskResult
    rw [h]
  · show (combinedErrTarget env order).isSome = true
    unfold combinedErrTarget
    rw [List.find?_isSome]
    exact ⟨t0, hperm.mem_iff.mpr ht0, by simp [hfail]⟩

theorem fetch_partial_failure_isolation_witness :
    ((["good", "bad"] : List String).Perm ["bad", "good"]
      ∧ ("bad" : String) ∈ (["bad", "good"] : List String)
      ∧ wEnv.getDeployment "bad" = none)
    ∧ ((fetchDataCmd wEnv ["bad", "good"] ["good", "bad"]).items
          = (sortStrings ["bad", "good"]).flatMap
              (fun t => if t = "bad" then [errHeaderItem "bad"] else taskResult wEnv t)
      ∧ (∀ t d, wEnv.getDeployment t = some d → taskResult wEnv t = localItems wEnv t d)
      ∧ (fetchDataCmd wEnv ["bad", "good"] ["good", "bad"]).errTarget.isSome = true) :=
  ⟨⟨by decide, by decide, by decide⟩,
    fetch_partial_failure_isolation wEnv ["bad", "good"] ["good", "bad"] "bad"
      (by decide) (by decide) (by decide)⟩

/-! ## Selector order independence -/

theorem lookup_eq_of_perm {β : Type} :
    ∀ {l₁ l₂ : List (String × β)}, l₁.Perm l₂ → (l₁.map Prod.fst).Nodup →
      ∀ k, l₁.lookup k = l₂.lookup k := by
  intro l₁ l₂ h
  induction h with
  | nil => intro _ _; rfl
  | cons x p ih =>
    intro hnd k
    obtain ⟨x1, x2⟩ := x
    simp only [List.map_cons, List.nodup_cons] at hnd
    rw [List.lookup_cons, List.lookup_cons]
    cases k == x1 with
    | true => rfl
    | false => exact ih hnd.2 k
  | swap x y l =>
    intro hnd k
    obtain ⟨x1, x2⟩ := x
    obtain ⟨y1, y2⟩ := y
    simp only [List.map_cons, List.nodup_cons, List.mem_cons] at hnd
    have hyx : ¬ y1 = x1 := fun hh => hnd.1 (Or.inl hh)
    rw [List.lookup_cons, List.lookup_cons, List.lookup_cons, List.lookup_cons]
    cases hky : k == y1 with
    | true =>
      cases hkx : k == x1 with
      | true =>
        exact absurd ((by simpa using hky : k = y1) ▸ (by simpa using hkx : k = x1)) hyx
      | false => rfl
    | false =>
      cases hkx : k == x1 with
      | true => rfl
      | false => rfl
  | trans p q ihp ihq =>
    intro hnd k
    have hnd2 := (p.map Prod.fst).nodup_iff.mp hnd
    exact (ihp hnd k).trans (ihq hnd2 k)

/-- C6: the selector string is built from the sorted matchLabels keys, so
two matchLabels maps holding the same key/value pairs in any order produce
the identical selector string. -/
theorem selector_order_independent (l₁ l₂ : List (String × String))
    (hperm : l₁.Perm l₂) (hnd : (l₁.map Prod.fst).Nodup) :
    buildSelector l₁ = buildSelector l₂ := by
  simp only [buildSelector]
  rw [sortStrings_eq_of_perm (hperm.map Prod.fst)]
  congr 1
  apply List.map_congr_left
  intro k _
  rw [lookup_eq_of_perm hperm hnd k]

/-! ## Scale command validation -/

/-- C7 (amended): replica-count validation differs per input path.  The
shortcut path rejects every non-positive-integer value (such as "-1" or
"abc") before `executeCommand` runs; the colon-command path rejects
non-numeric input (such as "abc") before any remote call; and on both
paths the input "3" with a resolved workload reaches the remote scale call
and, on success, yields the refresh-triggering message.  (A negative
integer on the colon-command path is not rejected; see the
counterexample.) -/
theorem scale_validation_per_path (env : ExecEnv) (dep val : String)
    (hdep : dep ≠ "") (hval : isPositiveInteger val = false) :
    (∃ msg, shortcutScale env val dep = .rejected msg)
    ∧ (executeCommand env "scale abc" "" dep).2 = []
    ∧ (env.scaleOk dep 3 = true →
        executeCommand env "scale 3" "" dep = (.commandFinished, [.scaleDeployment dep 3])
        ∧ triggersRefresh (executeCommand env "scale 3" "" dep).1 = true
        ∧ shortcutScale env "3" dep = .executed (.commandFinished, [.scaleDeployment dep 3])) := by
  have habc : executeCommand env "scale abc" "" dep
      = (.detailsErr ("Invalid replica count: " ++ "abc"), []) := by
    simp [executeCommand, show fields "scale abc" = ["scale", "abc"] from by decide, hdep,
      show parseGoInt "abc" = none from by decide]
  have h3 : env.scaleOk dep 3 = true →
      executeCommand env "scale 3" "" dep = (.commandFinished, [.scaleDeployment dep 3]) := by
    intro hok
    simp [executeCommand, show fields "scale 3" = ["scale", "3"] from by decide, hdep,
      show parseGoInt "3" = some 3 from by decide, hok]
  refine ⟨?_, ?_, fun hok => ⟨h3 hok, ?_, ?_⟩⟩
  · by_cases hv : val = ""
    · exact ⟨"Scale value cannot be empty", by simp [shortcutScale, hv]⟩
    · exact ⟨"Scale value must be a positive integer", by simp [shortcutScale, hv, hval]⟩
  · rw [habc]
  · rw [h3 hok]; rfl
  · have hss : shortcutScale env "3" dep
        = .executed (executeCommand env ("scale " ++ "3") "" dep) := by
      simp [shortcutScale, show trimStr "3" = "3" from by decide,
        show isPositiveInteger "3" = true from by decide]
    rw [hss, show ("scale " ++ "3" : String) = "scale 3" from rfl, h3 hok]

theorem scale_validation_per_path_witness :
    (("web" : String) ≠ "" ∧ isPositiveInteger "-1" = false)
    ∧ ((∃ msg, shortcutScale c7env "-1" "web" = .rejected msg)
      ∧ (executeCommand c7env "scale abc" "" "web").2 = []
      ∧ (c7env.scaleOk "web" 3 = true →
          executeCommand c7env "scale 3" "" "web"
              = (.commandFinished, [.scaleDeployment "web" 3])
          ∧ triggersRefresh (executeCommand c7env "scale 3" "" "web").1 = true
          ∧ shortcutScale c7env "3" "web"
              = .executed (.commandFinished, [.scaleDeployment "web" 3]))) :=
  ⟨⟨by decide, by decide⟩,
    scale_validation_per_path c7env "web" "-1" (by decide) (by decide)⟩

/-- C7 (counterexample): on the colon-command path, `scale -1` with a
resolved workload passes validation and issues the remote scale call with
replica count -1, so the non-positive input is not rejected before the
remote control-plane call on every input path. -/
theorem scale_negative_reaches_remote_cex :
    (executeCommand c7env "scale -1" "" "web").2 = [.scaleDeployment "web" (-1)]
    ∧ (executeCommand c7env "scale -1" "" "web").1 = .commandFinished
    ∧ isPositiveInteger "-1" = false := by
  decide

/-! ## Target-set operations keep at least one member -/

theorem length_le_filter_ne_succ {l : List String} (hnd : l.Nodup) (v : String) :
    l.length ≤ (l.filter (fun t => t ≠ v)).length + 1 := by
  induction l with
  | nil => simp
  | cons a as ih =>
    rw [List.nodup_cons] at hnd
    rw [List.filter_cons]
    by_cases h : a = v
    · subst h
      rw [if_neg (by simp)]
      have hself : as.filter (fun t => t ≠ a) = as :=
        List.filter_eq_self.mpr (fun b hb => by
          rw [decide_eq_true_eq]
          exact fun hba => hnd.1 (hba ▸ hb))
      rw [hself]
      simp
    · rw [if_pos (by simp [h])]
      have := ih hnd.2
      simp only [List.length_cons]
      omega

/-- C8: with exactly one monitored target, the remove shortcut path and the
remove colon-command path both leave the target set unchanged; and every
target-set operation (add, and both remove paths) keeps at least one
member. -/
theorem target_set_min_one_invariant (targets : List String) (items : List Item)
    (cursor : Nat) (val : String) (arg : Option String) (name : String)
    (hnd : targets.Nodup) (hlen : 1 ≤ targets.length) :
    (targets.length = 1 →
        removeShortcutPath targets items cursor val = targets
        ∧ removeCommandPath targets items cursor arg = targets)
    ∧ 1 ≤ (removeShortcutPath targets items cursor val).length
    ∧ 1 ≤ (removeCommandPath targets items cursor arg).length
    ∧ 1 ≤ (addTargetUpdate targets name).length := by
  have hfil : ∀ v : String, 2 ≤ targets.length → 1 ≤ (removeTargetUpdate targets v).length := by
    intro v h2
    have := length_le_filter_ne_succ hnd v
    unfold removeTargetUpdate
    omega
  refine ⟨?_, ?_, ?_, ?_⟩
  · intro h1
    constructor
    · simp only [removeShortcutPath]
      rw [if_pos (by omega)]
    · simp only [removeCommandPath]
      generalize (match arg with
        | some a => a
        | none => getCurrentDeploymentName items cursor) = x
      by_cases hA : x = ""
      · rw [if_pos hA]
      · rw [if_neg hA]
        by_cases hB : targets.contains x = true
        · rw [if_neg (fun hc => hc hB), if_pos (by omega : targets.length ≤ 1)]
        · rw [if_pos hB]
  · simp only [removeShortcutPath]
    by_cases h1 : targets.length ≤ 1
    · rw [if_pos h1]; exact hlen
    · rw [if_neg h1]
      by_cases h2 : (if val = "" then getCurrentDeploymentName items cursor else val) = ""
      · rw [if_neg (fun hc => hc h2)]; exact hlen
      · rw [if_pos h2]
        exact hfil _ (by omega)
  · simp only [removeCommandPath]
    generalize (match arg with
      | some a => a
      | none => getCurrentDeploymentName items cursor) = x
    by_cases hA : x = ""
    · rw [if_pos hA]; exact hlen
    · rw [if_neg hA]
      by_cases hB : targets.contains x = true
      · rw [if_neg (fun hc => hc hB)]
        by_cases hC : targets.length ≤ 1
        · rw [if_pos hC]; exact hlen
        · rw [if_neg hC]
          exact hfil _ (by omega)
      · rw [if_pos hB]; exact hlen
  · unfold addTargetUpdate
    by_cases h : targets.contains name = true
    · rw [if_pos h]; exact hlen
    · rw [if_neg h]
      simp only [List.length_append, List.length_cons, List.length_nil]
      omega

theorem target_set_min_one_invariant_witness :
    ((["only"] : List String).Nodup ∧ 1 ≤ (["only"] : List String).length)
    ∧ (((["only"] : List String).length = 1 →
          removeShortcutPath ["only"] [] 0 "only" = ["only"]
          ∧ removeCommandPath ["only"] [] 0 (some "only") = ["only"])
      ∧ 1 ≤ (removeShortcutPath ["only"] [] 0 "only").length
      ∧ 1 ≤ (removeCommandPath ["only"] [] 0 (some "only")).length
      ∧ 1 ≤ (addTargetUpdate ["only"] "extra").length) :=
  ⟨⟨by decide, by decide⟩,
    target_set_min_one_invariant ["only"] [] 0 "only" (some "only") "extra"
      (by decide) (by decide)⟩

theorem selector_order_independent_witness :
    (([("b", "2"), ("a", "1")] : List (String × String)).Perm [("a", "1"), ("b", "2")]
      ∧ (([("b", "2"), ("a", "1")] : List (String × String)).map Prod.fst).Nodup
      ∧ buildSelector [("a", "1"), ("b", "2")] = "a=1,b=2")
    ∧ buildSelector [("b", "2"), ("a", "1")] = buildSelector [("a", "1"), ("b", "2")] :=
  ⟨⟨by decide, by decide, by decide⟩,
    selector_order_independent [("b", "2"), ("a", "1")] [("a", "1"), ("b", "2")]
      (by decide) (by decide)⟩

end K9sDeck
